import Mathlib

/-!
# Verification of the OTT platform dashboard's ingestion and aggregation core

A shallow embedding, in Lean 4, of the data-loading/normalization functions
(`load_netflix_data`, `load_standard_platform`, `load_platform_comparison_data`)
and of the aggregation queries driving the dashboard panels
(`render_H1_local_language`, `render_H2_recency`, `render_H3_international_growth`)
of `src/dashboard.py`.

Modelling conventions:
* a dataframe cell is `Option String` (`none` = pandas `NaN`);
* Python string operations (`in`, `split`, `strip`, `replace`, `re.sub` with a
  character class, `float(...)`) are re-implemented structurally over `List Char`
  so every definition evaluates inside the kernel;
* `float` values are modelled as `ℚ` (every duration/ratio the program touches
  is decimal, no rounding is at stake in the claims);
* code that can raise a Python exception other than the caught
  `FileNotFoundError` returns `Except Unit`, where `.error ()` models an
  uncaught exception propagating out of the function.
-/

/-! ## Python string primitives over `List Char` -/

/-- `isPrefixL p l` : `p` is a prefix of `l` (character-exact). -/
def isPrefixL : List Char → List Char → Bool
  | [], _ => true
  | _ :: _, [] => false
  | a :: as, b :: bs => a = b && isPrefixL as bs

/-- `isSubL needle hay` : `needle` occurs contiguously inside `hay`.
Models Python's case-sensitive substring test `needle in hay`. -/
def isSubL (needle : List Char) : List Char → Bool
  | [] => needle.isEmpty
  | c :: t => isPrefixL needle (c :: t) || isSubL needle t

/-- Python `needle in hay` for strings. -/
def containsSub (hay needle : String) : Bool := isSubL needle.data hay.data

/-- Python `s.split(sep)` for a one-character separator: `splitChar ',' "a,b"`
gives `["a", "b"]`, and splitting the empty string gives `[""]`. -/
def splitChar (c : Char) : List Char → List (List Char)
  | [] => [[]]
  | x :: xs =>
    let r := splitChar c xs
    if x = c then [] :: r else (x :: r.headD []) :: r.tail

/-- ASCII whitespace, as Python's `str.strip()` / `float()` strip it. -/
def isSpaceC (c : Char) : Bool := c = ' ' || (9 ≤ c.toNat && c.toNat ≤ 13)

/-- Python `s.strip()`. -/
def trimL (l : List Char) : List Char :=
  ((l.dropWhile isSpaceC).reverse.dropWhile isSpaceC).reverse

/-- One fuel-indexed step list for replacing every occurrence of `pat` (left to
right, non-overlapping) by `rep`; fuel `l.length` is always enough because each
step consumes at least one input character. -/
def replaceFuel (pat rep : List Char) : ℕ → List Char → List Char
  | _, [] => []
  | 0, l => l
  | n + 1, x :: xs =>
    if !pat.isEmpty && isPrefixL pat (x :: xs) then
      rep ++ replaceFuel pat rep n (List.drop (pat.length - 1) xs)
    else
      x :: replaceFuel pat rep n xs

/-- Python `s.replace(pat, rep)` (pandas `str.replace(..., regex=False)`):
replaces every occurrence. -/
def replaceAll (pat rep l : List Char) : List Char := replaceFuel pat rep l.length l

/-- Numeric value of a digit string (caller checks the digits). -/
def digitsToNat (l : List Char) : ℕ := l.foldl (fun acc c => acc * 10 + (c.toNat - 48)) 0

/-- `parseNatL l` : the value of a non-empty all-digit string, else `none`. -/
def parseNatL (l : List Char) : Option ℕ :=
  if !l.isEmpty && l.all Char.isDigit then some (digitsToNat l) else none

/-- Python `float(s)` on the decimal forms the catalog data uses: optional
whitespace, optional sign, digits with an optional fractional part. Returns
`none` where Python raises `ValueError` (e.g. `"N/A"`, `""`). -/
def pyFloat (s : String) : Option ℚ :=
  let t := trimL s.data
  let signed : Bool × List Char :=
    match t with
    | c :: rest => if c = '-' then (true, rest) else if c = '+' then (false, rest) else (false, t)
    | [] => (false, t)
  let v : Option ℚ :=
    match splitChar '.' signed.2 with
    | [a] => (parseNatL a).map (fun n => (n : ℚ))
    | [a, b] =>
      if (a.isEmpty || a.all Char.isDigit) && (b.isEmpty || b.all Char.isDigit)
          && !(a.isEmpty && b.isEmpty) then
        some ((digitsToNat a : ℚ) + (digitsToNat b : ℚ) / (10 : ℚ) ^ b.length)
      else none
    | _ => none
  v.map (fun q => if signed.1 then -q else q)

/-- A dataframe cell: `none` models pandas `NaN`. -/
abbrev Cell := Option String

/-- `pd.to_numeric(x, errors='coerce')` followed by `.astype(int)` on one cell:
an unparseable or missing cell coerces to `NaN` (`none`); a parsed value is
truncated toward zero as numpy's int cast does. -/
def toNumericInt (c : Cell) : Option Int :=
  (c.bind pyFloat).map (fun q => Int.tdiv q.num (q.den : Int))

/-- `.astype(float)` on one cell: `NaN` stays missing, a parseable string is
converted, and an unparseable string raises (`.error ()`), exactly as numpy
raises `ValueError` — there is no `errors='coerce'` on this path. -/
def astypeFloat (c : Cell) : Except Unit (Option ℚ) :=
  match c with
  | none => .ok none
  | some s =>
    match pyFloat s with
    | some q => .ok (some q)
    | none => .error ()

/-! ## `load_netflix_data` (src/dashboard.py lines 405-427) -/

/-- One raw CSV row of `netflix_titles (1).csv`, restricted to the columns the
loader touches. -/
structure NetflixRawRow where
  title : Cell
  type : Cell
  duration : Cell
  country : Cell
  release_year : Cell
deriving DecidableEq

/-- One row of the loaded Netflix table after `load_netflix_data`'s transforms. -/
structure NetflixRow where
  title : Cell
  type : Cell
  release_year : Int
  country : String
  origin_country : String
  is_us : Bool
  runtime_min : Option ℚ
  num_seasons : Option ℚ
deriving DecidableEq

/-- Line 410: `df['is_us'] = df['country'].apply(lambda x: 'United States' in x)`. -/
def is_us_flag (country : String) : Bool := containsSub country "United States"

/-- Lines 412-414: `get_primary_country` — `str(country_str).split(',')[0].strip()`
(the `pd.isna` branch is unreachable after line 409's `fillna('Unknown')`). -/
def get_primary_country (country : String) : String :=
  String.mk (trimL ((splitChar ',' country.data).headD []))

/-- Lines 409 and 416 together: `fillna('Unknown')` then `get_primary_country`. -/
def netflix_origin (c : Cell) : String := get_primary_country (c.getD "Unknown")

/-- Line 421: `df[df['type'] == 'Movie']['duration'].str.replace(' min', '', regex=False).astype(float)`
applied to one Movie cell. -/
def movie_runtime_parse (d : Cell) : Except Unit (Option ℚ) :=
  astypeFloat (d.map (fun s => String.mk (replaceAll " min".data [] s.data)))

/-- Line 422: strip `' Seasons'` then `' Season'` and `.astype(float)`,
applied to one TV Show cell. -/
def tv_seasons_parse (d : Cell) : Except Unit (Option ℚ) :=
  astypeFloat (d.map (fun s =>
    String.mk (replaceAll " Season".data [] (replaceAll " Seasons".data [] s.data))))

/-- `load_netflix_data`, one row: country fill + flags (409-416), year coercion
and the `dropna(subset=['release_year'])` row drop (417-419, `.ok none`), then
the duration casts (421-422), whose `ValueError` on an unparseable non-null
string propagates (`.error ()`) — the function catches only `FileNotFoundError`. -/
def loadNetflixRow (r : NetflixRawRow) : Except Unit (Option NetflixRow) :=
  let country := r.country.getD "Unknown"
  match toNumericInt r.release_year with
  | none => .ok none
  | some y =>
    match (if r.type = some "Movie" then movie_runtime_parse r.duration else .ok none),
        (if r.type = some "TV Show" then tv_seasons_parse r.duration else .ok none) with
    | .ok rt, .ok ns =>
      .ok (some { title := r.title, type := r.type, release_year := y, country := country,
                  origin_country := netflix_origin r.country, is_us := is_us_flag country,
                  runtime_min := rt, num_seasons := ns })
    | .error e, _ => .error e
    | _, .error e => .error e

/-- The whole-table load: rows dropped by the year coercion disappear, the
first uncaught per-cell exception aborts the load. -/
def loadNetflixRows : List NetflixRawRow → Except Unit (List NetflixRow)
  | [] => .ok []
  | r :: rs =>
    match loadNetflixRow r, loadNetflixRows rs with
    | .ok none, .ok t => .ok t
    | .ok (some row), .ok t => .ok (row :: t)
    | .error e, _ => .error e
    | _, .error e => .error e

/-! ## `render_H2_recency` — the recency split (lines 798-812) -/

/-- The H2 radio (`"All Content" / "Movies Only" / "TV Shows Only"`) and the H3
radio (`"All" / "Movie" / "TV Show"`): both filter on `df['type']`. -/
inductive TypeFilter
  | all
  | movie
  | tv
deriving DecidableEq

/-- Lines 798-802 (and 970-971): the content-type filter. -/
def filterByType : TypeFilter → List NetflixRow → List NetflixRow
  | .all, l => l
  | .movie, l => l.filter (fun r => r.type = some "Movie")
  | .tv, l => l.filter (fun r => r.type = some "TV Show")

/-- Line 810: `len(df_filtered[df_filtered['release_year'] > year_cutoff])`. -/
def recentRows (l : List NetflixRow) (cutoff : Int) : List NetflixRow :=
  l.filter (fun r => cutoff < r.release_year)

/-- Line 811: `len(df_filtered[df_filtered['release_year'] <= year_cutoff])`. -/
def olderRows (l : List NetflixRow) (cutoff : Int) : List NetflixRow :=
  l.filter (fun r => r.release_year ≤ cutoff)

def recent_count (l : List NetflixRow) (cutoff : Int) : ℕ := (recentRows l cutoff).length

def older_count (l : List NetflixRow) (cutoff : Int) : ℕ := (olderRows l cutoff).length

/-! ## `render_H3_international_growth` — country sourcing (lines 969-1000) -/

/-- Lines 969-971: `df[df['is_us'] == False]` then the content-type filter. -/
def h3NonUS (tf : TypeFilter) (l : List NetflixRow) : List NetflixRow :=
  filterByType tf (l.filter (fun r => r.is_us = false))

/-- `value_counts()` on a column, as (value, count) pairs. `value_counts`
orders by descending count; the claims checked here are about which pairs the
table holds, never about their order, so first-occurrence order is used. -/
def valueCounts (l : List String) : List (String × ℕ) :=
  ((l.foldr (fun x acc => if x ∈ acc then acc else x :: acc) []).map
    (fun c => (c, l.count c)))

/-- Lines 996-1000: per-country counts of non-US titles, dropping the
`'Unknown'` sentinel and every country with `Count < min_content_count`. -/
def country_sourcing (l : List NetflixRow) (tf : TypeFilter) (minCount : ℕ) :
    List (String × ℕ) :=
  ((valueCounts ((h3NonUS tf l).map (fun r => r.origin_country))).filter
      (fun p => p.1 ≠ "Unknown")).filter
    (fun p => minCount ≤ p.2)

/-! ## `load_standard_platform` / `load_platform_comparison_data` (lines 429-472) -/

/-- A raw CSV row: cells keyed by column name. -/
abbrev RawRow := List (String × Cell)

/-- A raw CSV: its column list and rows. -/
structure RawCSV where
  cols : List String
  rows : List RawRow
deriving DecidableEq

/-- What `pd.read_csv(filename)` did: the parsed table, `FileNotFoundError`
(the only exception line 449 catches), or any other failure of an unreadable
file (`PermissionError`, `ParserError`, ...). -/
inductive ReadResult
  | ok (t : RawCSV)
  | fileNotFound
  | otherError
deriving DecidableEq

def emptyCSV : RawCSV := { cols := [], rows := [] }

/-- pandas `df.empty`: no rows or no columns. -/
def csvEmpty (t : RawCSV) : Bool := t.rows.isEmpty || t.cols.isEmpty

/-- The cell of column `c` in row `r` (`none` both for `NaN` and for a column
the row does not carry). -/
def getCell (r : RawRow) (c : String) : Cell := ((r.find? (fun p => p.1 = c)).map Prod.snd).join

/-- `df[name] = value` with one constant value: overwrite the column in place
if present, else append it. -/
def setCol (name : String) (v : Cell) (t : RawCSV) : RawCSV :=
  if name ∈ t.cols then
    { cols := t.cols,
      rows := t.rows.map (fun r => r.map (fun p => if p.1 = name then (p.1, v) else p)) }
  else
    { cols := t.cols ++ [name], rows := t.rows.map (fun r => r ++ [(name, v)]) }

/-- `df.rename(columns={old: new})`. -/
def renameCol (old new : String) (t : RawCSV) : RawCSV :=
  { cols := t.cols.map (fun c => if c = old then new else c),
    rows := t.rows.map (fun r => r.map (fun p => if p.1 = old then (new, p.2) else p)) }

/-- Apply `f` to every cell of the column `name`. -/
def mapCol (name : String) (f : Cell → Cell) (t : RawCSV) : RawCSV :=
  { cols := t.cols,
    rows := t.rows.map (fun r => r.map (fun p => if p.1 = name then (p.1, f p.2) else p)) }

/-- Python `str(x)` on a cell: `str(nan)` is the literal string `'nan'`. -/
def strOfCell : Cell → String
  | none => "nan"
  | some s => s

/-- Line 442: `lambda x: re.sub(r"[\[\]']", "", str(x)).split(',')[0]` — drop
every `[`, `]` and `'` character, then take the first comma-separated token.
Note the `str(x)` turns a `NaN` cell into the string `'nan'`. -/
def stripCountry (x : Cell) : String :=
  String.mk ((splitChar ','
    ((strOfCell x).data.filter
      (fun ch => ch ≠ '[' && ch ≠ ']' && ch ≠ Char.ofNat 39))).headD [])

def requiredCols : List String :=
  ["title", "release_year", "country", "platform", "type"]

/-- `df[required_cols]` (guarded by the line 447 check, so all columns exist). -/
def selectCols (cs : List String) (t : RawCSV) : RawCSV :=
  { cols := cs, rows := t.rows.map (fun r => cs.map (fun c => (c, getCell r c))) }

/-- `load_standard_platform(filename, platform_name, country_col)`
(lines 433-451), with `read` standing for the filesystem as `pd.read_csv`
sees it. Only `FileNotFoundError` is caught (empty table); any other read
failure propagates (`.error ()`). A source lacking a required canonical
column after the renames yields an empty table. -/
def load_standard_platform (read : String → ReadResult)
    (filename platformName countryCol : String) : Except Unit RawCSV :=
  match read filename with
  | .fileNotFound => .ok emptyCSV
  | .otherError => .error ()
  | .ok df0 =>
    let df1 := setCol "platform" (some platformName) df0
    let df2 := if countryCol ≠ "country" then renameCol countryCol "country" df1 else df1
    let df3 := if "type" ∈ df2.cols then df2 else setCol "type" (some "Unknown") df2
    let df4 :=
      if countryCol = "production_countries" then
        mapCol "country" (fun c => some (stripCountry c)) df3
      else df3
    let df5 :=
      if platformName = "Disney+" && "year" ∈ df4.cols then
        renameCol "year" "release_year" df4
      else df4
    if requiredCols.all (fun c => c ∈ df5.cols) then .ok (selectCols requiredCols df5)
    else .ok emptyCSV

/-- Line 465: `us_aliases = ['US', 'United States']`. -/
def us_aliases : List String := ["US", "United States"]

/-- Line 466: `~ any(alias in str(x) for alias in us_aliases)` — true iff the
(already filled) country string contains NO registered home-market alias. -/
def is_local_flag (country : String) : Bool :=
  !(us_aliases.any (fun a => containsSub country a))

/-- One row of the merged comparison table after lines 463-470. -/
structure CompRow where
  title : Cell
  release_year : Int
  country : String
  platform : String
  type : Cell
  is_local : Bool
deriving DecidableEq

/-- Lines 464-470 applied to one merged raw row: `fillna('Unknown')` on
country, the `is_local` flag, year coercion and the year `dropna` (`none`
drops the row). The `platform` cell is the constant the loader set, so the
`getD ""` default never fires on a row the pipeline produced. -/
def buildCompRow (r : RawRow) : Option CompRow :=
  let country := (getCell r "country").getD "Unknown"
  match toNumericInt (getCell r "release_year") with
  | none => none
  | some y =>
    some { title := getCell r "title", release_year := y, country := country,
           platform := (getCell r "platform").getD "", type := getCell r "type",
           is_local := is_local_flag country }

/-- `load_platform_comparison_data` (lines 429-472): the six per-source loads
(in source order; the first uncaught failure aborts, as in Python), the
`not df.empty` filter, `pd.concat`, and the merged-table transforms. -/
def load_platform_comparison_data (read : String → ReadResult) :
    Except Unit (List CompRow) :=
  match load_standard_platform read "netflix_titles (1).csv" "Netflix" "country",
      load_standard_platform read "amazon_prime_titles.csv" "Amazon Prime" "country",
      load_standard_platform read "disney_plus_shows.csv" "Disney+" "country",
      load_standard_platform read "apple_tv_titles.csv" "Apple TV" "production_countries",
      load_standard_platform read "crunchyroll_titles.csv" "Crunchyroll" "production_countries",
      load_standard_platform read "hbo_titles.csv" "HBO" "production_countries" with
  | .ok d1, .ok d2, .ok d3, .ok d4, .ok d5, .ok d6 =>
    let dfs := [d1, d2, d3, d4, d5, d6].filter (fun t => !csvEmpty t)
    if dfs.isEmpty then .ok []
    else .ok (((dfs.map RawCSV.rows).flatten).filterMap buildCompRow)
  | _, _, _, _, _, _ => .error ()

/-! ## `render_H1_local_language` — the ratio table (lines 599-633) -/

/-- One row of `ratio_df` (lines 631-633): the groupby aggregates
`['mean', 'sum', 'count']` over `is_local` plus the derived percentage. -/
structure RatioRow where
  platform : String
  mean : ℚ
  sum : ℕ
  count : ℕ
  localRatioPct : ℚ
deriving DecidableEq

/-- The `groupby('platform')` aggregate row for platform `p` over the filtered
table `f`: mean, sum and count of the boolean `is_local` column. -/
def groupRatioRow (f : List CompRow) (p : String) : RatioRow :=
  let grp := f.filter (fun r => r.platform = p)
  let loc := (grp.filter (fun r => r.is_local)).length
  { platform := p, mean := (loc : ℚ) / (grp.length : ℚ), sum := loc, count := grp.length,
    localRatioPct := (loc : ℚ) / (grp.length : ℚ) * 100 }

/-- Insertion sort by a boolean `le`, inserting each earlier element before the
later elements it ties with: the stable sort that numpy's introsort performs on
the at-most-six-row `ratio_df` (arrays below 16 elements are insertion-sorted). -/
def insertLe {α : Type} (le : α → α → Bool) (x : α) : List α → List α
  | [] => [x]
  | y :: ys => if le x y then x :: y :: ys else y :: insertLe le x ys

/-- The sort: earlier input elements are inserted before equal later ones. -/
def sortLe {α : Type} (le : α → α → Bool) : List α → List α
  | [] => []
  | x :: xs => insertLe le x (sortLe le xs)

/-- Comparator of line 633's `sort_values('local_ratio', ascending=False)`. -/
def ratioDescLe (a b : RatioRow) : Bool := decide (b.localRatioPct ≤ a.localRatioPct)

/-- Lexicographic (character code) `≤` on strings, the ascending key order
`groupby('platform')` (default `sort=True`) emits its groups in. -/
def lexLe : List Char → List Char → Bool
  | [], _ => true
  | _ :: _, [] => false
  | a :: as, b :: bs => if a = b then lexLe as bs else decide (a < b)

def strLe (s t : String) : Bool := lexLe s.data t.data

/-- Distinct values of a column in first-occurrence order. -/
def dedupKeys : List String → List String
  | [] => []
  | x :: xs => x :: (dedupKeys xs).filter (fun y => y ≠ x)

/-- The `groupby('platform')` keys: distinct platforms, ascending. -/
def platformKeys (f : List CompRow) : List String :=
  sortLe strLe (dedupKeys (f.map (fun r => r.platform)))

/-- Lines 599-602 (the year-range and platform filters) and 631-633 (groupby
aggregation, percentage, descending sort): the spec's `local_content_ratio`. -/
def local_content_ratio (rows : List CompRow) (yearLo yearHi : Int)
    (platforms : List String) : List RatioRow :=
  let f := rows.filter (fun r =>
    yearLo ≤ r.release_year && r.release_year ≤ yearHi && platforms.contains r.platform)
  sortLe ratioDescLe ((platformKeys f).map (groupRatioRow f))

/-- Line 612: the overall ratio metric, with its explicit
`if len(df_filtered) > 0 ... else 0` guard mapping division by zero to 0. -/
def overall_local_ratio (l : List CompRow) : ℚ :=
  if 0 < l.length then ((l.filter (fun r => r.is_local)).length : ℚ) / (l.length : ℚ) * 100
  else 0

/-! ## Concrete fixtures used by witnesses and scenario conjuncts -/

/-- A minimal well-formed platform CSV: one Movie row from France. -/
def goodCSV : RawCSV :=
  { cols := ["title", "release_year", "country", "type"],
    rows := [[("title", some "T"), ("release_year", some "2020"),
              ("country", some "France"), ("type", some "Movie")]] }

/-- A filesystem where five of the six sources parse and `hbo_titles.csv` is
missing. -/
def readFive : String → ReadResult := fun f =>
  if f = "hbo_titles.csv" then ReadResult.fileNotFound else ReadResult.ok goodCSV

/-- An Apple TV CSV whose one row has a `NaN` `production_countries` cell. -/
def appleCSV : RawCSV :=
  { cols := ["title", "release_year", "production_countries", "type"],
    rows := [[("title", some "A"), ("release_year", some "2019"),
              ("production_countries", none), ("type", some "Movie")]] }

/-- A filesystem with only `apple_tv_titles.csv` present. -/
def readApple : String → ReadResult := fun f =>
  if f = "apple_tv_titles.csv" then ReadResult.ok appleCSV else ReadResult.fileNotFound

/-- A raw Netflix row whose load succeeds. -/
def w_nraw : NetflixRawRow := ⟨some "T", some "Movie", some "90 min", some "US", some "2020"⟩

/-- The loaded image of `w_nraw`. -/
def w_nrow : NetflixRow := ⟨some "T", some "Movie", 2020, "US", "US", false, some 90, none⟩

/-- One merged comparison row, for the `local_content_ratio` witness. -/
def wCompRow : CompRow :=
  { title := some "T", release_year := 2010, country := "United States",
    platform := "Netflix", type := some "Movie", is_local := false }

/-! ## Helper lemmas -/

theorem length_filter_partition {α : Type} (p : α → Bool) (l : List α) :
    (l.filter p).length + (l.filter (fun a => !p a)).length = l.length :=
  (List.length_eq_length_filter_add p).symm

theorem splitChar_not_mem {c : Char} {l : List Char} (h : c ∉ l) : splitChar c l = [l] := by
  induction l with
  | nil => rfl
  | cons x xs ih =>
    have hx : ¬x = c := fun he => h (he ▸ List.mem_cons_self x xs)
    have ih' := ih (fun hm => h (List.mem_cons_of_mem _ hm))
    simp only [splitChar, if_neg hx, ih']
    rfl

theorem splitChar_append {c : Char} {l₂ : List Char} :
    ∀ {l₁ : List Char}, c ∉ l₁ → splitChar c (l₁ ++ c :: l₂) = l₁ :: splitChar c l₂ := by
  intro l₁
  induction l₁ with
  | nil => intro _; simp [splitChar]
  | cons x xs ih =>
    intro h
    have hx : ¬x = c := fun he => h (he ▸ List.mem_cons_self x xs)
    have ih' : splitChar c (xs.append (c :: l₂)) = xs :: splitChar c l₂ :=
      ih (fun hm => h (List.mem_cons_of_mem _ hm))
    simp only [List.cons_append, splitChar, if_neg hx, ih']
    rfl

/-! ## Claim theorems -/

/-- C1: the domestic flag of every ingested row is true iff the raw country
string contains at least one registered home-market alias as a case-sensitive
substring. On the merged comparison table the flag is the negation of
`is_local` and the aliases are `['US', 'United States']`; on the Netflix table
the flag is `is_us` with the single alias `'United States'`. The spec's three
examples are instances. -/
theorem C1_domestic_flag :
    (∀ c : String, is_local_flag c = false ↔ ∃ a ∈ us_aliases, containsSub c a = true)
    ∧ (∀ c : String, is_us_flag c = true ↔ containsSub c "United States" = true)
    ∧ is_local_flag "United States" = false
    ∧ is_local_flag "US, Canada" = false
    ∧ is_local_flag "Germany" = true
    ∧ is_us_flag "United States" = true
    ∧ is_us_flag "Germany" = false := by
  refine ⟨fun c => ?_, fun c => Iff.rfl, by decide, by decide, by decide, by decide, by decide⟩
  simp [is_local_flag, List.any_eq_true]

/-- C2 counterexample: the claim "every unparseable duration string yields a
missing value and never a propagated exception" is false: a Movie row whose
duration is the unparseable string `"N/A"` makes the loader's
`.astype(float)` raise, and the exception escapes `load_netflix_data`
(which catches only `FileNotFoundError`). -/
theorem C2_counterexample :
    loadNetflixRow ⟨some "Title", some "Movie", some "N/A", some "United States", some "2020"⟩
      = .error ()
    ∧ loadNetflixRows
        [⟨some "Title", some "Movie", some "N/A", some "United States", some "2020"⟩]
      = .error () :=
  ⟨rfl, rfl⟩

/-- C2 as amended: duration parsing maps `"90 min"` to 90.0 for Movies and
`"3 Seasons"` / `"1 Season"` to 3.0 / 1.0 for TV Shows, and a missing (null)
duration yields a missing value; but a non-null unparseable duration string
(such as `"N/A"` or the empty string) raises a coercion error that propagates
out of the loader instead of becoming a missing value. -/
theorem C2_duration_parsing :
    movie_runtime_parse (some "90 min") = .ok (some 90)
    ∧ tv_seasons_parse (some "3 Seasons") = .ok (some 3)
    ∧ tv_seasons_parse (some "1 Season") = .ok (some 1)
    ∧ movie_runtime_parse none = .ok none
    ∧ tv_seasons_parse none = .ok none
    ∧ movie_runtime_parse (some "N/A") = .error ()
    ∧ movie_runtime_parse (some "") = .error ()
    ∧ tv_seasons_parse (some "N/A") = .error () :=
  ⟨rfl, rfl, rfl, rfl, rfl, rfl, rfl, rfl⟩

/-- C4: country normalization. A bracketed/quoted list has its `[`, `]`, `'`
characters stripped and its first comma-token taken; a plain comma-separated
string yields its first token (stripped of surrounding whitespace by
`get_primary_country`); a null country yields the `"Unknown"` sentinel on the
Netflix path, whose `fillna` runs before the token split. -/
theorem C4_country_normalization :
    netflix_origin none = "Unknown"
    ∧ netflix_origin (some "France, Germany") = "France"
    ∧ stripCountry (some "['United States', 'UK']") = "United States"
    ∧ (∀ x : Cell, x = none → netflix_origin x = "Unknown")
    ∧ (∀ s t : String, ',' ∉ s.data →
        netflix_origin (some (s ++ "," ++ t)) = String.mk (trimL s.data))
    ∧ (∀ s : String, ',' ∉ s.data → netflix_origin (some s) = String.mk (trimL s.data)) := by
  refine ⟨by decide, by decide, by decide, ?_, ?_, ?_⟩
  · intro x hx; subst hx; rfl
  · intro s t h
    simp only [netflix_origin, Option.getD_some, get_primary_country, String.data_append]
    rw [List.append_assoc, List.singleton_append, splitChar_append h]
    rfl
  · intro s h
    simp only [netflix_origin, Option.getD_some, get_primary_country]
    rw [splitChar_not_mem h]
    rfl

/-- C5: for every cutoff and content-type filter, a title counts as recent iff
its release year is strictly greater than the cutoff, a title whose year
equals the cutoff lands in the older bucket and not the recent one, and
`recent_count + older_count` equals the number of filtered titles. -/
theorem C5_recency_split : ∀ (l : List NetflixRow) (tf : TypeFilter) (c : Int),
    recent_count (filterByType tf l) c + older_count (filterByType tf l) c
      = (filterByType tf l).length
    ∧ (∀ r, r ∈ recentRows (filterByType tf l) c ↔ r ∈ filterByType tf l ∧ c < r.release_year)
    ∧ (∀ r, r ∈ filterByType tf l → r.release_year = c →
        r ∈ olderRows (filterByType tf l) c ∧ r ∉ recentRows (filterByType tf l) c) := by
  intro l tf c
  refine ⟨?_, ?_, ?_⟩
  · have hfun : (fun r : NetflixRow => decide (r.release_year ≤ c))
        = fun r : NetflixRow => !decide (c < r.release_year) := by
      funext r
      by_cases h : c < r.release_year
      · simp [h, not_le.mpr h]
      · simp [h, not_lt.mp h]
    rw [recent_count, older_count, recentRows, olderRows, hfun]
    exact length_filter_partition _ _
  · intro r
    simp [recentRows, List.mem_filter]
  · intro r hr he
    constructor
    · simp [olderRows, List.mem_filter, hr, he]
    · simp [recentRows, List.mem_filter, he]

/-- C6: a (country, count) pair survives `country_sourcing` iff it is a
`value_counts` entry of the filtered non-US table, the country is not the
`"Unknown"` sentinel, and its count is at least the threshold — so the
boundary is inclusive: with threshold 15 a count of exactly 15 passes and a
count of 14 never does, and `"Unknown"` is always excluded. -/
theorem C6_country_sourcing : ∀ (l : List NetflixRow) (tf : TypeFilter) (m : ℕ)
    (c : String) (n : ℕ),
    ((c, n) ∈ country_sourcing l tf m ↔
      ((c, n) ∈ valueCounts ((h3NonUS tf l).map (fun r => r.origin_country))
        ∧ c ≠ "Unknown" ∧ m ≤ n))
    ∧ (∀ k, ("Unknown", k) ∉ country_sourcing l tf m)
    ∧ ((c, 14) ∉ country_sourcing l tf 15)
    ∧ (((c, 15) ∈ valueCounts ((h3NonUS tf l).map (fun r => r.origin_country))
        ∧ c ≠ "Unknown") → (c, 15) ∈ country_sourcing l tf 15) := by
  intro l tf m c n
  have key : ∀ (m' : ℕ) (c' : String) (n' : ℕ),
      (c', n') ∈ country_sourcing l tf m' ↔
        ((c', n') ∈ valueCounts ((h3NonUS tf l).map (fun r => r.origin_country))
          ∧ c' ≠ "Unknown" ∧ m' ≤ n') := by
    intro m' c' n'
    simp only [country_sourcing, List.mem_filter, decide_eq_true_eq, ne_eq]
    tauto
  refine ⟨key m c n, ?_, ?_, ?_⟩
  · intro k hk
    exact ((key m "Unknown" k).mp hk).2.1 rfl
  · intro hk
    have h14 := ((key 15 c 14).mp hk).2.2
    omega
  · intro h12
    exact (key 15 c 15).mpr ⟨h12.1, h12.2, le_refl 15⟩


/-- C10: on every `production_countries` source (Apple TV, Crunchyroll, HBO)
the line-442 transform applies `str(x)` before splitting, so a `NaN` country
cell becomes the literal string `'nan'` — a non-null value the merged table's
later `fillna('Unknown')` no longer touches. The last conjunct runs the whole
pipeline on an Apple TV table with a null country row. -/
theorem C10_nan_country :
    (∀ x : Cell, x = none → some (stripCountry x) = some "nan")
    ∧ ((some "nan" : Cell).getD "Unknown" = "nan")
    ∧ ("nan" ≠ "Unknown")
    ∧ load_platform_comparison_data readApple
        = .ok [⟨some "A", 2019, "nan", "Apple TV", some "Movie", true⟩] := by
  refine ⟨?_, rfl, by decide, rfl⟩
  intro x hx
  subst hx
  rfl

/-- Both arms of a schema-check style conditional are successful loads. -/
theorem exists_ok_ite {α : Type} (c : Prop) [Decidable c] (a b : α) :
    ∃ t, (if c then Except.ok a else Except.ok b) = (Except.ok t : Except Unit α) := by
  split
  · exact ⟨a, rfl⟩
  · exact ⟨b, rfl⟩

/-- Helper: a per-source load only fails when `pd.read_csv` fails with
something other than `FileNotFoundError`. -/
theorem load_standard_platform_ok (read : String → ReadResult) (f p c : String)
    (h : read f ≠ ReadResult.otherError) :
    ∃ t, load_standard_platform read f p c = .ok t := by
  unfold load_standard_platform
  cases hr : read f with
  | fileNotFound => exact ⟨emptyCSV, rfl⟩
  | otherError => exact absurd hr h
  | ok df0 => exact exists_ok_ite _ _ _

/-- C3 counterexample: the claim "a missing **or unreadable** source yields an
empty table and never an unhandled failure" is false for unreadable files:
a `pd.read_csv` failure other than `FileNotFoundError` (permission or parse
error) escapes `load_standard_platform` and aborts the whole merge. -/
theorem C3_counterexample :
    load_standard_platform (fun _ => ReadResult.otherError)
        "netflix_titles (1).csv" "Netflix" "country" = .error ()
    ∧ load_platform_comparison_data (fun _ => ReadResult.otherError) = .error () :=
  ⟨rfl, rfl⟩

/-- C3 as amended: for every source whose file is *missing*
(`FileNotFoundError`), the per-source load returns an empty table without
raising, and when no source fails for another reason the merge succeeds; with
five good sources and a missing sixth the merged table holds exactly the five
sources' rows. A file that exists but is unreadable propagates instead
(see the counterexample). -/
theorem C3_missing_source :
    (∀ (read : String → ReadResult) (filename platformName countryCol : String),
      read filename = ReadResult.fileNotFound →
        load_standard_platform read filename platformName countryCol = .ok emptyCSV)
    ∧ (∀ read : String → ReadResult, (∀ f, read f ≠ ReadResult.otherError) →
        ∃ rows, load_platform_comparison_data read = .ok rows)
    ∧ load_platform_comparison_data readFive
        = .ok [⟨some "T", 2020, "France", "Netflix", some "Movie", true⟩,
               ⟨some "T", 2020, "France", "Amazon Prime", some "Movie", true⟩,
               ⟨some "T", 2020, "France", "Disney+", some "Movie", true⟩,
               ⟨some "T", 2020, "France", "Apple TV", some "Movie", true⟩,
               ⟨some "T", 2020, "France", "Crunchyroll", some "Movie", true⟩] := by
  refine ⟨?_, ?_, rfl⟩
  · intro read filename platformName countryCol h
    unfold load_standard_platform
    rw [h]
  · intro read hre
    obtain ⟨t1, h1⟩ := load_standard_platform_ok read "netflix_titles (1).csv" "Netflix" "country" (hre _)
    obtain ⟨t2, h2⟩ := load_standard_platform_ok read "amazon_prime_titles.csv" "Amazon Prime" "country" (hre _)
    obtain ⟨t3, h3⟩ := load_standard_platform_ok read "disney_plus_shows.csv" "Disney+" "country" (hre _)
    obtain ⟨t4, h4⟩ := load_standard_platform_ok read "apple_tv_titles.csv" "Apple TV" "production_countries" (hre _)
    obtain ⟨t5, h5⟩ := load_standard_platform_ok read "crunchyroll_titles.csv" "Crunchyroll" "production_countries" (hre _)
    obtain ⟨t6, h6⟩ := load_standard_platform_ok read "hbo_titles.csv" "HBO" "production_countries" (hre _)
    unfold load_platform_comparison_data
    rw [h1, h2, h3, h4, h5, h6]
    exact exists_ok_ite _ _ _

/-- Helper: a successfully loaded Netflix row gets `runtime_min` only from the
`type == 'Movie'` branch and `num_seasons` only from the `type == 'TV Show'`
branch. -/
theorem loadNetflixRow_exclusive (raw : NetflixRawRow) (r : NetflixRow)
    (h : loadNetflixRow raw = .ok (some r)) :
    (r.runtime_min ≠ none → r.type = some "Movie")
    ∧ (r.num_seasons ≠ none → r.type = some "TV Show") := by
  unfold loadNetflixRow at h
  split at h
  · exact absurd (Except.ok.inj h) (by simp)
  · rename_i y hy
    split at h
    · rename_i rt ns hrt hns
      have hr' : _ = r := Option.some.inj (Except.ok.inj h)
      subst hr'
      constructor
      · intro hrm
        by_contra hm
        rw [if_neg hm] at hrt
        exact hrm (Except.ok.inj hrt).symm
      · intro hns'
        by_contra ht
        rw [if_neg ht] at hns
        exact hns' (Except.ok.inj hns).symm
    · exact absurd h (by simp)
    · exact absurd h (by simp)

/-- Helper: every row of a successfully loaded Netflix table is the image of
some raw row under the per-row load. -/
theorem loadNetflixRows_source (raws : List NetflixRawRow) (t : List NetflixRow)
    (h : loadNetflixRows raws = .ok t) (r : NetflixRow) (hr : r ∈ t) :
    ∃ raw, loadNetflixRow raw = .ok (some r) := by
  induction raws generalizing t with
  | nil =>
    obtain rfl : ([] : List NetflixRow) = t := Except.ok.inj h
    cases hr
  | cons a as ih =>
    unfold loadNetflixRows at h
    split at h
    · rename_i t' _ hrest
      obtain rfl : t' = t := Except.ok.inj h
      exact ih _ hrest hr
    · rename_i row t' hrow hrest
      obtain rfl : row :: t' = t := Except.ok.inj h
      rcases List.mem_cons.mp hr with rfl | hr'
      · exact ⟨a, hrow⟩
      · exact ih _ hrest hr'
    · exact absurd h (by simp)
    · exact absurd h (by simp)

/-- C9: in every successfully loaded Netflix table, `runtime_min` is populated
only on `Movie` rows and `num_seasons` only on `TV Show` rows, and no row has
both populated. -/
theorem C9_mutual_exclusivity (raws : List NetflixRawRow) (t : List NetflixRow)
    (r : NetflixRow) (hload : loadNetflixRows raws = .ok t) (hr : r ∈ t) :
    (r.runtime_min ≠ none → r.type = some "Movie")
    ∧ (r.num_seasons ≠ none → r.type = some "TV Show")
    ∧ ¬(r.runtime_min ≠ none ∧ r.num_seasons ≠ none) := by
  obtain ⟨raw, hraw⟩ := loadNetflixRows_source raws t hload r hr
  obtain ⟨hm, hs⟩ := loadNetflixRow_exclusive raw r hraw
  refine ⟨hm, hs, fun hb => ?_⟩
  have : (some "Movie" : Cell) = some "TV Show" := (hm hb.1).symm.trans (hs hb.2)
  simp at this

/-- C9 witness: the theorem applied to a one-row table loaded from a concrete
Movie row. -/
theorem C9_witness :
    (w_nrow.runtime_min ≠ none → w_nrow.type = some "Movie")
    ∧ (w_nrow.num_seasons ≠ none → w_nrow.type = some "TV Show")
    ∧ ¬(w_nrow.runtime_min ≠ none ∧ w_nrow.num_seasons ≠ none) :=
  C9_mutual_exclusivity [w_nraw] [w_nrow] w_nrow rfl (List.mem_singleton.mpr rfl)

/-! ## Order lemmas for the groupby/sort pipeline -/

theorem lexLe_refl : ∀ l : List Char, lexLe l l = true
  | [] => rfl
  | a :: as => by simp [lexLe, lexLe_refl as]

theorem lexLe_total : ∀ as bs : List Char, lexLe as bs = true ∨ lexLe bs as = true
  | [], _ => Or.inl rfl
  | _ :: _, [] => Or.inr rfl
  | a :: as, b :: bs => by
    by_cases hab : a = b
    · subst hab
      simpa [lexLe] using lexLe_total as bs
    · rcases lt_or_gt_of_ne hab with h | h
      · exact Or.inl (by simp [lexLe, hab, h])
      · exact Or.inr (by simp [lexLe, Ne.symm hab, h])

theorem lexLe_trans (as : List Char) :
    ∀ bs cs, lexLe as bs = true → lexLe bs cs = true → lexLe as cs = true := by
  induction as with
  | nil => intro bs cs _ _; rfl
  | cons a as ih =>
    intro bs cs h1 h2
    cases bs with
    | nil => simp [lexLe] at h1
    | cons b bs =>
      cases cs with
      | nil => simp [lexLe] at h2
      | cons c cs =>
        simp only [lexLe] at h1 h2 ⊢
        by_cases hab : a = b <;> by_cases hbc : b = c
        · subst hab; subst hbc
          rw [if_pos rfl] at h1 h2 ⊢
          exact ih _ _ h1 h2
        · subst hab
          rw [if_neg hbc] at h2
          have hac : a < c := of_decide_eq_true h2
          rw [if_neg (ne_of_lt hac)]
          exact decide_eq_true hac
        · subst hbc
          rw [if_neg hab] at h1 ⊢
          exact h1
        · rw [if_neg hab] at h1
          rw [if_neg hbc] at h2
          have hac : a < c := lt_trans (of_decide_eq_true h1) (of_decide_eq_true h2)
          rw [if_neg (ne_of_lt hac)]
          exact decide_eq_true hac

theorem lexLe_ne_lex : ∀ {as bs : List Char}, lexLe as bs = true → as ≠ bs →
    List.Lex (· < ·) as bs := by
  intro as
  induction as with
  | nil =>
    intro bs _ hne
    cases bs with
    | nil => exact absurd rfl hne
    | cons b bs => exact List.Lex.nil
  | cons a as ih =>
    intro bs h hne
    cases bs with
    | nil => simp [lexLe] at h
    | cons b bs =>
      simp only [lexLe] at h
      by_cases hab : a = b
      · subst hab
        rw [if_pos rfl] at h
        exact List.Lex.cons (ih h (fun he => hne (by rw [he])))
      · rw [if_neg hab] at h
        exact List.Lex.rel (of_decide_eq_true h)

/-- Character-by-character `strLe` together with inequality gives the
lexicographic strict order on `String`. -/
theorem strLe_ne_lt {s t : String} (h : strLe s t = true) (hne : s ≠ t) : s < t := by
  have hdata : s.data ≠ t.data := fun he => hne (by cases s; cases t; cases he; rfl)
  have hlex : List.Lex (· < ·) s.data t.data := lexLe_ne_lex h hdata
  rw [String.lt_iff_toList_lt]
  exact hlex

theorem mem_insertLe {α : Type} (le : α → α → Bool) (x a : α) :
    ∀ l : List α, (a ∈ insertLe le x l ↔ a = x ∨ a ∈ l) := by
  intro l
  induction l with
  | nil => simp [insertLe]
  | cons y ys ih =>
    unfold insertLe
    split
    · simp [List.mem_cons]
    · simp only [List.mem_cons, ih]
      tauto

theorem mem_sortLe {α : Type} (le : α → α → Bool) (a : α) :
    ∀ l : List α, (a ∈ sortLe le l ↔ a ∈ l) := by
  intro l
  induction l with
  | nil => simp [sortLe]
  | cons x xs ih => simp [sortLe, mem_insertLe, ih]

/-- Stability of the insertion: inserting `x` into a list already pairwise `R`,
all of whose elements stand in `S` to `x` (they came later in the input),
keeps the list pairwise `R`. -/
theorem pairwise_insertLe {α : Type} (le : α → α → Bool) (R S : α → α → Prop)
    (h1 : ∀ a b, le a b = true → le b a = true → S a b → R a b)
    (h2 : ∀ a b, le a b = true → le b a = false → R a b)
    (h3 : ∀ a b, le a b = false → le b a = true)
    (h4 : ∀ a b, R a b → le a b = true)
    (h5 : ∀ a b c, le a b = true → le b c = true → le a c = true)
    (x : α) : ∀ l : List α, l.Pairwise R → (∀ y ∈ l, S x y) →
      (insertLe le x l).Pairwise R := by
  intro l
  induction l with
  | nil => intro _ _; simp [insertLe]
  | cons y ys ih =>
    intro hl hx
    rw [List.pairwise_cons] at hl
    obtain ⟨hy, hys⟩ := hl
    unfold insertLe
    by_cases hxy : le x y = true
    · rw [if_pos hxy]
      refine List.Pairwise.cons ?_ (List.Pairwise.cons hy hys)
      intro z hz
      rcases List.mem_cons.mp hz with rfl | hz'
      · cases hyx : le z x with
        | true => exact h1 x z hxy hyx (hx z (List.mem_cons_self _ _))
        | false => exact h2 x z hxy hyx
      · have hxz : le x z = true := h5 x y z hxy (h4 y z (hy z hz'))
        cases hzx : le z x with
        | true => exact h1 x z hxz hzx (hx z (List.mem_cons_of_mem _ hz'))
        | false => exact h2 x z hxz hzx
    · have hxy' : le x y = false := by
        cases he : le x y
        · rfl
        · exact absurd he hxy
      rw [if_neg hxy]
      refine List.Pairwise.cons ?_ (ih hys (fun z hz => hx z (List.mem_cons_of_mem _ hz)))
      intro z hz
      rcases (mem_insertLe le x z ys).mp hz with heq | hz'
      · rw [heq]
        exact h2 y x (h3 x y hxy') hxy'
      · exact hy z hz'

/-- A stable insertion sort of an input pairwise `S` is pairwise `R`. -/
theorem pairwise_sortLe {α : Type} (le : α → α → Bool) (R S : α → α → Prop)
    (h1 : ∀ a b, le a b = true → le b a = true → S a b → R a b)
    (h2 : ∀ a b, le a b = true → le b a = false → R a b)
    (h3 : ∀ a b, le a b = false → le b a = true)
    (h4 : ∀ a b, R a b → le a b = true)
    (h5 : ∀ a b c, le a b = true → le b c = true → le a c = true) :
    ∀ l : List α, l.Pairwise S → (sortLe le l).Pairwise R := by
  intro l
  induction l with
  | nil => intro _; simp [sortLe]
  | cons x xs ih =>
    intro hl
    rw [List.pairwise_cons] at hl
    exact pairwise_insertLe le R S h1 h2 h3 h4 h5 x (sortLe le xs)
      (ih hl.2) (fun y hy => hl.1 y ((mem_sortLe le y xs).mp hy))

theorem mem_dedupKeys (a : String) : ∀ l : List String, (a ∈ dedupKeys l ↔ a ∈ l) := by
  intro l
  induction l with
  | nil => simp [dedupKeys]
  | cons x xs ih =>
    simp only [dedupKeys, List.mem_cons, List.mem_filter, ih, decide_eq_true_eq]
    by_cases hax : a = x
    · simp [hax]
    · simp [hax]

theorem dedupKeys_pairwise_ne : ∀ l : List String, (dedupKeys l).Pairwise (· ≠ ·) := by
  intro l
  induction l with
  | nil => exact List.Pairwise.nil
  | cons x xs ih =>
    refine List.Pairwise.cons ?_ (List.Pairwise.filter _ ih)
    intro y hy
    have : decide (y ≠ x) = true := (List.mem_filter.mp hy).2
    exact (of_decide_eq_true this).symm

theorem groupRatioRow_platform (f : List CompRow) (p : String) :
    (groupRatioRow f p).platform = p := rfl

/-- The groupby keys come out strictly ascending. -/
theorem platformKeys_sorted (f : List CompRow) :
    (platformKeys f).Pairwise (· < ·) := by
  have base : (platformKeys f).Pairwise (fun s t => strLe s t = true ∧ s ≠ t) := by
    refine pairwise_sortLe strLe _ (· ≠ ·) ?_ ?_ ?_ ?_ ?_ _
      (dedupKeys_pairwise_ne _)
    · intro a b hab _ hS
      exact ⟨hab, hS⟩
    · intro a b hab hba
      refine ⟨hab, fun he => ?_⟩
      rw [he] at hba
      rw [strLe, lexLe_refl] at hba
      exact Bool.noConfusion hba
    · intro a b hab
      rcases lexLe_total a.data b.data with h | h
      · rw [strLe] at hab
        exact absurd h (by rw [hab]; exact Bool.noConfusion)
      · exact h
    · intro a b hR
      exact hR.1
    · intro a b c hab hbc
      exact lexLe_trans a.data b.data c.data hab hbc
  exact base.imp (fun h => strLe_ne_lt h.1 h.2)

/-- C7: `local_content_ratio` returns its per-platform rows sorted descending
by the local-content ratio, and rows with equal ratios appear in ascending
platform-name order — the order the `groupby('platform')` (ascending keys)
emits them in, preserved by the stable sort of the at-most-six-row frame. -/
theorem C7_sorted_by_ratio : ∀ (rows : List CompRow) (lo hi : Int) (ps : List String),
    (local_content_ratio rows lo hi ps).Pairwise
      (fun a b => b.localRatioPct ≤ a.localRatioPct
        ∧ (a.localRatioPct = b.localRatioPct → a.platform < b.platform)) := by
  intro rows lo hi ps
  unfold local_content_ratio
  refine pairwise_sortLe ratioDescLe _ (fun a b => a.platform < b.platform)
    ?_ ?_ ?_ ?_ ?_ _ ?_
  · intro a b hab _ hS
    exact ⟨of_decide_eq_true hab, fun _ => hS⟩
  · intro a b hab hba
    refine ⟨of_decide_eq_true hab, fun he => ?_⟩
    rw [ratioDescLe, he] at hba
    simp at hba
  · intro a b hab
    rw [ratioDescLe] at hab ⊢
    simp only [decide_eq_false_iff_not] at hab
    exact decide_eq_true (le_of_not_le hab)
  · intro a b hR
    exact decide_eq_true hR.1
  · intro a b c hab hbc
    exact decide_eq_true (le_trans (of_decide_eq_true hbc) (of_decide_eq_true hab))
  · refine List.pairwise_map.mpr ?_
    exact (platformKeys_sorted _).imp (fun h => h)

/-- C8: every row of `local_content_ratio` satisfies
`mean = sum / count`, `0 ≤ mean ≤ 1`, `sum ≤ count` and
`sum + (count - sum) = count` with a positive count, and the line-612 overall
metric maps an empty filtered table (total count 0) to ratio 0 instead of a
division error. -/
theorem C8_ratio_contract (rows : List CompRow) (lo hi : Int) (ps : List String)
    (row : RatioRow) (h : row ∈ local_content_ratio rows lo hi ps) :
    row.mean = (row.sum : ℚ) / (row.count : ℚ)
    ∧ 0 ≤ row.mean ∧ row.mean ≤ 1
    ∧ row.sum ≤ row.count
    ∧ row.sum + (row.count - row.sum) = row.count
    ∧ 0 < row.count
    ∧ overall_local_ratio [] = 0 := by
  unfold local_content_ratio at h
  rw [mem_sortLe] at h
  obtain ⟨p, hp, hrow⟩ := List.mem_map.mp h
  rw [platformKeys, mem_sortLe, mem_dedupKeys] at hp
  obtain ⟨r0, hr0, hr0p⟩ := List.mem_map.mp hp
  subst hrow
  set f := rows.filter (fun r =>
    lo ≤ r.release_year && r.release_year ≤ hi && ps.contains r.platform) with hf
  have hmem : r0 ∈ f.filter (fun r => r.platform = p) :=
    List.mem_filter.mpr ⟨hr0, by simp [hr0p]⟩
  have hpos : 0 < (f.filter (fun r => r.platform = p)).length :=
    List.length_pos_of_mem hmem
  have hle : ((f.filter (fun r => r.platform = p)).filter (fun r => r.is_local)).length
      ≤ (f.filter (fun r => r.platform = p)).length :=
    List.length_filter_le _ _
  refine ⟨rfl, ?_, ?_, hle, Nat.add_sub_cancel' hle, hpos, rfl⟩
  · exact div_nonneg (Nat.cast_nonneg _) (Nat.cast_nonneg _)
  · exact div_le_one_of_le₀ (Nat.cast_le.mpr hle) (Nat.cast_nonneg _)

/-- C8 witness: the theorem applied to a concrete one-platform table. -/
theorem C8_witness :
    (groupRatioRow [wCompRow] "Netflix").mean
        = ((groupRatioRow [wCompRow] "Netflix").sum : ℚ)
          / ((groupRatioRow [wCompRow] "Netflix").count : ℚ)
    ∧ 0 ≤ (groupRatioRow [wCompRow] "Netflix").mean
    ∧ (groupRatioRow [wCompRow] "Netflix").mean ≤ 1
    ∧ (groupRatioRow [wCompRow] "Netflix").sum ≤ (groupRatioRow [wCompRow] "Netflix").count
    ∧ (groupRatioRow [wCompRow] "Netflix").sum
        + ((groupRatioRow [wCompRow] "Netflix").count - (groupRatioRow [wCompRow] "Netflix").sum)
        = (groupRatioRow [wCompRow] "Netflix").count
    ∧ 0 < (groupRatioRow [wCompRow] "Netflix").count
    ∧ overall_local_ratio [] = 0 :=
  C8_ratio_contract [wCompRow] 2000 2020 ["Netflix"] (groupRatioRow [wCompRow] "Netflix")
    (List.mem_singleton.mpr rfl)
